import Mathlib

/-!
Verification of the event-broker module (`rasa/core/broker.py`).

The development shallowly embeds the broker code: JSON values are an explicit
inductive type with an executable serializer (`dumps`, modelling Python's
`json.dumps` with default separators and `ensure_ascii=False`; the
`ensure_ascii=True` default only changes the spelling of non-ASCII characters,
not the parsed value) and an executable parser (`loads`, modelling
`json.loads` restricted to integer numerals).  Stateful Python pieces
(the `logging` registry, SQLAlchemy sessions) become explicit state passing.
-/

namespace Broker

/-! ### JSON values

Python events are dicts from string keys to JSON-serializable values
(`Dict[Text, Any]` in the source).  We use a mutual inductive so that all
recursions over it are structural (hence kernel-evaluable). Numbers are
modelled as integers; float events are outside the model. -/

mutual

inductive Json where
  | null : Json
  | bool (b : Bool) : Json
  | int (n : Int) : Json
  | str (s : String) : Json
  | arr (elems : JsonList) : Json
  | obj (members : JsonMembers) : Json

inductive JsonList where
  | nil : JsonList
  | cons (hd : Json) (tl : JsonList) : JsonList

inductive JsonMembers where
  | nil : JsonMembers
  | cons (key : String) (value : Json) (tl : JsonMembers) : JsonMembers

end

deriving instance DecidableEq for Json

/-- Python `dict.get key`: the value bound to `key` (keys of a dict are
distinct, so first-match lookup is exact). -/
def JsonMembers.get : JsonMembers → String → Option Json
  | .nil, _ => none
  | .cons k v ms, key => if k = key then some v else ms.get key

/-! ### Serializer (`json.dumps`) -/

/-- The decimal digit character for `n < 10`. -/
def digitCh (n : Nat) : Char := Char.ofNat (48 + n)

/-- Lowercase hex digit character for `n < 16` (CPython emits lowercase in
`\uXXXX` escapes). -/
def hexDigitCh (n : Nat) : Char :=
  if n < 10 then digitCh n else Char.ofNat (87 + n)

/-- Fueled decimal printer for naturals (most significant digit first). -/
def natCharsAux : Nat → Nat → List Char
  | 0, _ => []
  | fuel + 1, n =>
      if n < 10 then [digitCh n]
      else natCharsAux fuel (n / 10) ++ [digitCh (n % 10)]

/-- Decimal digits of a natural number. -/
def natChars (n : Nat) : List Char := natCharsAux (n + 1) n

/-- Decimal representation of an integer, as Python prints it. -/
def intChars (i : Int) : List Char :=
  if i < 0 then '-' :: natChars i.natAbs else natChars i.toNat

/-- CPython's string-escape table (`json.encoder`, `ensure_ascii=False`):
`"` and `\` get a backslash, the five named control characters get their
short escapes, remaining control characters become `\u00XX`, everything
else is emitted literally. -/
def escapeChar (c : Char) : List Char :=
  if c = '"' then ['\\', '"']
  else if c = '\\' then ['\\', '\\']
  else if c = '\n' then ['\\', 'n']
  else if c = '\t' then ['\\', 't']
  else if c = '\r' then ['\\', 'r']
  else if c.toNat = 8 then ['\\', 'b']
  else if c.toNat = 12 then ['\\', 'f']
  else if c.toNat < 32 then
    ['\\', 'u', '0', '0', hexDigitCh (c.toNat / 16), hexDigitCh (c.toNat % 16)]
  else [c]

def escapeChars : List Char → List Char
  | [] => []
  | c :: cs => escapeChar c ++ escapeChars cs

/-- A JSON string literal: quote, escaped body, quote. -/
def strChars (s : String) : List Char := '"' :: (escapeChars s.data ++ ['"'])

mutual

/-- Characters of the serialized value (Python `json.dumps` with the default
separators `", "` and `": "`). -/
def jchars : Json → List Char
  | .null => "null".data
  | .bool true => "true".data
  | .bool false => "false".data
  | .int i => intChars i
  | .str s => strChars s
  | .arr xs => '[' :: (arrChars xs ++ [']'])
  | .obj ms => '{' :: (objChars ms ++ ['}'])

/-- Contents between the brackets of an array. -/
def arrChars : JsonList → List Char
  | .nil => []
  | .cons x xs => jchars x ++ arrRestChars xs

/-- `", "`-separated continuation of an array body. -/
def arrRestChars : JsonList → List Char
  | .nil => []
  | .cons x xs => ',' :: ' ' :: (jchars x ++ arrRestChars xs)

/-- Contents between the braces of an object. -/
def objChars : JsonMembers → List Char
  | .nil => []
  | .cons k v ms => strChars k ++ (':' :: ' ' :: (jchars v ++ objRestChars ms))

/-- `", "`-separated continuation of an object body. -/
def objRestChars : JsonMembers → List Char
  | .nil => []
  | .cons k v ms => ',' :: ' ' :: (strChars k ++ (':' :: ' ' :: (jchars v ++ objRestChars ms)))

end

/-- `json.dumps` on a value (default separators, see module comment). -/
def dumpsJson (j : Json) : String := String.mk (jchars j)

/-- `json.dumps` on an event dict. -/
def dumps (event : JsonMembers) : String := dumpsJson (.obj event)

/-! ### Parser (`json.loads`)

A recursive-descent parser over the character list, fueled so every
recursion is structural.  It covers the grammar `json.dumps` emits
(numbers restricted to integer numerals; `\uXXXX` escapes below the
surrogate range, which is all the serializer produces). -/

/-- Decoded value of a hex digit character. -/
def hexVal (c : Char) : Option Nat :=
  if 48 ≤ c.toNat ∧ c.toNat ≤ 57 then some (c.toNat - 48)
  else if 97 ≤ c.toNat ∧ c.toNat ≤ 102 then some (c.toNat - 87)
  else if 65 ≤ c.toNat ∧ c.toNat ≤ 70 then some (c.toNat - 55)
  else none

/-- The two-character escapes accepted after a backslash. -/
def unescapeChar (c : Char) : Option Char :=
  if c = '"' then some '"'
  else if c = '\\' then some '\\'
  else if c = '/' then some '/'
  else if c = 'n' then some '\n'
  else if c = 't' then some '\t'
  else if c = 'r' then some '\r'
  else if c = 'b' then some (Char.ofNat 8)
  else if c = 'f' then some (Char.ofNat 12)
  else none

mutual

/-- Body of a string literal up to (and consuming) the closing quote. -/
def parseStringBody : List Char → Option (List Char × List Char)
  | [] => none
  | c :: rest =>
      if c = '"' then some ([], rest)
      else if c = '\\' then parseEscapeSeq rest
      else (parseStringBody rest).map fun p => (c :: p.1, p.2)

/-- The characters following a backslash inside a string literal. -/
def parseEscapeSeq : List Char → Option (List Char × List Char)
  | [] => none
  | e :: rest2 =>
      if e = 'u' then
        match rest2 with
        | a :: b :: c2 :: d :: rest3 => do
            let va ← hexVal a
            let vb ← hexVal b
            let vc ← hexVal c2
            let vd ← hexVal d
            let p ← parseStringBody rest3
            some (Char.ofNat (((va * 16 + vb) * 16 + vc) * 16 + vd) :: p.1, p.2)
        | _ => none
      else do
        let u ← unescapeChar e
        let p ← parseStringBody rest2
        some (u :: p.1, p.2)

end

def isDigitCh (c : Char) : Bool := 48 ≤ c.toNat ∧ c.toNat ≤ 57

/-- Accumulate a run of decimal digits. -/
def parseDigitsAux : List Char → Nat → Nat × List Char
  | [], acc => (acc, [])
  | c :: rest, acc =>
      if isDigitCh c then parseDigitsAux rest (acc * 10 + (c.toNat - 48))
      else (acc, c :: rest)

/-- A nonempty run of decimal digits, as a natural number. -/
def parseDigits : List Char → Option (Nat × List Char)
  | [] => none
  | c :: rest =>
      if isDigitCh c then some (parseDigitsAux rest (c.toNat - 48)) else none

def isWsCh (c : Char) : Bool := c = ' ' ∨ c = '\t' ∨ c = '\n' ∨ c = '\r'

def skipWs : List Char → List Char
  | [] => []
  | c :: rest => if isWsCh c then skipWs rest else c :: rest

mutual

def parseValue : Nat → List Char → Option (Json × List Char)
  | 0, _ => none
  | fuel + 1, cs =>
      match skipWs cs with
      | 'n' :: 'u' :: 'l' :: 'l' :: rest => some (.null, rest)
      | 't' :: 'r' :: 'u' :: 'e' :: rest => some (.bool true, rest)
      | 'f' :: 'a' :: 'l' :: 's' :: 'e' :: rest => some (.bool false, rest)
      | '"' :: rest => do
          let (s, r) ← parseStringBody rest
          some (.str (String.mk s), r)
      | '[' :: rest => parseArrItems fuel (skipWs rest)
      | '{' :: rest => parseObjItems fuel (skipWs rest)
      | '-' :: rest => do
          let (n, r) ← parseDigits rest
          some (.int (-(n : Int)), r)
      | other => do
          let (n, r) ← parseDigits other
          some (.int (n : Int), r)

/-- Array body after `[` (leading whitespace already skipped). -/
def parseArrItems : Nat → List Char → Option (Json × List Char)
  | 0, _ => none
  | fuel + 1, cs =>
      match cs with
      | ']' :: rest => some (.arr .nil, rest)
      | _ => do
          let (v, r) ← parseValue fuel cs
          let (vs, r') ← parseArrRest fuel (skipWs r)
          some (.arr (.cons v vs), r')

/-- Array continuation: `]` or `, value …`. -/
def parseArrRest : Nat → List Char → Option (JsonList × List Char)
  | 0, _ => none
  | fuel + 1, cs =>
      match cs with
      | ']' :: rest => some (.nil, rest)
      | ',' :: rest => do
          let (v, r) ← parseValue fuel (skipWs rest)
          let (vs, r') ← parseArrRest fuel (skipWs r)
          some (.cons v vs, r')
      | _ => none

/-- One `"key": value` member. -/
def parseMember : Nat → List Char → Option ((String × Json) × List Char)
  | 0, _ => none
  | fuel + 1, cs =>
      match cs with
      | '"' :: rest => do
          let (k, r) ← parseStringBody rest
          match skipWs r with
          | ':' :: r2 => do
              let (v, r3) ← parseValue fuel (skipWs r2)
              some ((String.mk k, v), r3)
          | _ => none
      | _ => none

/-- Object body after `{` (leading whitespace already skipped). -/
def parseObjItems : Nat → List Char → Option (Json × List Char)
  | 0, _ => none
  | fuel + 1, cs =>
      match cs with
      | '}' :: rest => some (.obj .nil, rest)
      | _ => do
          let (kv, r) ← parseMember fuel cs
          let (ms, r') ← parseObjRest fuel (skipWs r)
          some (.obj (.cons kv.1 kv.2 ms), r')

/-- Object continuation: `}` or `, "key": value …`. -/
def parseObjRest : Nat → List Char → Option (JsonMembers × List Char)
  | 0, _ => none
  | fuel + 1, cs =>
      match cs with
      | '}' :: rest => some (.nil, rest)
      | ',' :: rest => do
          let (kv, r) ← parseMember fuel (skipWs rest)
          let (ms, r') ← parseObjRest fuel (skipWs r)
          some (.cons kv.1 kv.2 ms, r')
      | _ => none

end

/-- `json.loads`: parse a whole document (nothing but whitespace may follow
the value). -/
def loads (s : String) : Option Json :=
  match parseValue (s.length + 1) s.data with
  | some (j, rest) => if skipWs rest = [] then some j else none
  | none => none

/-! ### Round-trip: decimal numerals -/

/-- The list does not begin with a decimal digit (a run of digits followed by
such a list parses back unambiguously). -/
def noDigitHead : List Char → Bool
  | [] => true
  | c :: _ => !isDigitCh c

theorem digitCh_toNat {d : Nat} (h : d < 10) : (digitCh d).toNat = 48 + d := by
  interval_cases d <;> decide

theorem isDigitCh_digitCh {d : Nat} (h : d < 10) : isDigitCh (digitCh d) = true := by
  interval_cases d <;> decide

theorem natCharsAux_congr :
    ∀ n f₁ f₂ : Nat, n < f₁ → n < f₂ → natCharsAux f₁ n = natCharsAux f₂ n := by
  intro n
  induction n using Nat.strong_induction_on with
  | _ n ih =>
    intro f₁ f₂ h₁ h₂
    obtain ⟨g₁, rfl⟩ : ∃ g, f₁ = g + 1 := ⟨f₁ - 1, by omega⟩
    obtain ⟨g₂, rfl⟩ : ∃ g, f₂ = g + 1 := ⟨f₂ - 1, by omega⟩
    simp only [natCharsAux]
    split
    · rfl
    · next hn =>
      have hdiv : n / 10 < n := Nat.div_lt_self (by omega) (by omega)
      rw [ih (n / 10) hdiv g₁ g₂ (by omega) (by omega)]

/-- Unfueled unfolding of the decimal printer. -/
theorem natChars_eq (n : Nat) :
    natChars n =
      if n < 10 then [digitCh n] else natChars (n / 10) ++ [digitCh (n % 10)] := by
  show natCharsAux (n + 1) n = _
  simp only [natCharsAux]
  split
  · rfl
  · next hn =>
    have hdiv : n / 10 < n := Nat.div_lt_self (by omega) (by omega)
    rw [natCharsAux_congr (n / 10) n (n / 10 + 1) (by omega) (by omega)]
    rfl

theorem natChars_digits (n : Nat) : ∀ c ∈ natChars n, isDigitCh c = true := by
  induction n using Nat.strong_induction_on with
  | _ n ih =>
    rw [natChars_eq]
    split
    · next h =>
      intro c hc
      rw [List.mem_singleton] at hc
      subst hc
      exact isDigitCh_digitCh h
    · next h =>
      intro c hc
      rw [List.mem_append] at hc
      rcases hc with hc | hc
      · exact ih (n / 10) (Nat.div_lt_self (by omega) (by omega)) c hc
      · rw [List.mem_singleton] at hc
        subst hc
        exact isDigitCh_digitCh (Nat.mod_lt _ (by omega))

theorem natChars_cons (n : Nat) :
    ∃ c t, natChars n = c :: t ∧ isDigitCh c = true := by
  induction n using Nat.strong_induction_on with
  | _ n ih =>
    rw [natChars_eq]
    split
    · next h => exact ⟨digitCh n, [], rfl, isDigitCh_digitCh h⟩
    · next h =>
      obtain ⟨c, t, hct, hc⟩ := ih (n / 10) (Nat.div_lt_self (by omega) (by omega))
      exact ⟨c, t ++ [digitCh (n % 10)], by rw [hct]; rfl, hc⟩

/-- The accumulation step of the digit reader. -/
def digitFold (a : Nat) (c : Char) : Nat := a * 10 + (c.toNat - 48)

theorem foldl_digitFold_natChars (n : Nat) :
    List.foldl digitFold 0 (natChars n) = n := by
  induction n using Nat.strong_induction_on with
  | _ n ih =>
    rw [natChars_eq]
    split
    · next h =>
      simp [digitFold, digitCh_toNat h]
    · next h =>
      rw [List.foldl_append, ih (n / 10) (Nat.div_lt_self (by omega) (by omega))]
      simp only [List.foldl_cons, List.foldl_nil, digitFold,
        digitCh_toNat (Nat.mod_lt n (by omega))]
      omega

theorem parseDigitsAux_append (ds : List Char) :
    ∀ (rest : List Char) (acc : Nat),
      (∀ c ∈ ds, isDigitCh c = true) → noDigitHead rest = true →
      parseDigitsAux (ds ++ rest) acc = (List.foldl digitFold acc ds, rest) := by
  induction ds with
  | nil =>
    intro rest acc _ hrest
    cases rest with
    | nil => simp [parseDigitsAux]
    | cons c t =>
      simp only [noDigitHead, Bool.not_eq_true'] at hrest
      simp [parseDigitsAux, hrest]
  | cons c ds ih =>
    intro rest acc hds hrest
    simp only [List.cons_append, parseDigitsAux]
    rw [if_pos (hds c (by simp))]
    simp only [List.append_eq]
    rw [ih rest _ (fun x hx => hds x (by simp [hx])) hrest]
    rfl

theorem parseDigits_natChars (n : Nat) (rest : List Char)
    (hrest : noDigitHead rest = true) :
    parseDigits (natChars n ++ rest) = some (n, rest) := by
  obtain ⟨c, t, hct, hc⟩ := natChars_cons n
  have hall := natChars_digits n
  rw [hct] at hall ⊢
  simp only [List.cons_append, parseDigits]
  rw [if_pos hc]
  rw [parseDigitsAux_append t rest _ (fun x hx => hall x (by simp [hx])) hrest]
  have h0 := foldl_digitFold_natChars n
  rw [hct] at h0
  simp only [List.foldl_cons] at h0
  have : digitFold 0 c = c.toNat - 48 := by simp [digitFold]
  rw [this] at h0
  rw [h0]

/-! ### Round-trip: string escaping -/

theorem hexVal_hexDigitCh {v : Nat} (h : v < 16) : hexVal (hexDigitCh v) = some v := by
  interval_cases v <;> decide

theorem parseStringBody_unicodeEscape (a b : Char) (M : List Char) :
    parseStringBody ('\\' :: 'u' :: '0' :: '0' :: a :: b :: M) =
      (hexVal a).bind fun va =>
        (hexVal b).bind fun vb =>
          (parseStringBody M).bind fun p =>
            some (Char.ofNat (((0 * 16 + 0) * 16 + va) * 16 + vb) :: p.1, p.2) := rfl

theorem parseStringBody_escape (s : List Char) :
    ∀ rest : List Char,
      parseStringBody (escapeChars s ++ ('"' :: rest)) = some (s, rest) := by
  induction s with
  | nil => intro rest; rfl
  | cons c cs ih =>
    intro rest
    simp only [escapeChars, List.append_assoc]
    unfold escapeChar
    split_ifs with h1 h2 h3 h4 h5 h6 h7 h8
    · subst h1
      have step : ∀ M, parseStringBody ('\\' :: '"' :: M) =
          (parseStringBody M).bind fun p => some ('"' :: p.1, p.2) := fun _ => rfl
      simp only [List.cons_append, List.nil_append, step, ih rest]
      rfl
    · subst h2
      have step : ∀ M, parseStringBody ('\\' :: '\\' :: M) =
          (parseStringBody M).bind fun p => some ('\\' :: p.1, p.2) := fun _ => rfl
      simp only [List.cons_append, List.nil_append, step, ih rest]
      rfl
    · subst h3
      have step : ∀ M, parseStringBody ('\\' :: 'n' :: M) =
          (parseStringBody M).bind fun p => some ('\n' :: p.1, p.2) := fun _ => rfl
      simp only [List.cons_append, List.nil_append, step, ih rest]
      rfl
    · subst h4
      have step : ∀ M, parseStringBody ('\\' :: 't' :: M) =
          (parseStringBody M).bind fun p => some ('\t' :: p.1, p.2) := fun _ => rfl
      simp only [List.cons_append, List.nil_append, step, ih rest]
      rfl
    · subst h5
      have step : ∀ M, parseStringBody ('\\' :: 'r' :: M) =
          (parseStringBody M).bind fun p => some ('\r' :: p.1, p.2) := fun _ => rfl
      simp only [List.cons_append, List.nil_append, step, ih rest]
      rfl
    · have hc : c = Char.ofNat 8 := by
        have := Char.ofNat_toNat c
        rw [h6] at this
        exact this.symm
      subst hc
      have step : ∀ M, parseStringBody ('\\' :: 'b' :: M) =
          (parseStringBody M).bind fun p => some (Char.ofNat 8 :: p.1, p.2) := fun _ => rfl
      simp only [List.cons_append, List.nil_append, step, ih rest]
      rfl
    · have hc : c = Char.ofNat 12 := by
        have := Char.ofNat_toNat c
        rw [h7] at this
        exact this.symm
      subst hc
      have step : ∀ M, parseStringBody ('\\' :: 'f' :: M) =
          (parseStringBody M).bind fun p => some (Char.ofNat 12 :: p.1, p.2) := fun _ => rfl
      simp only [List.cons_append, List.nil_append, step, ih rest]
      rfl
    · simp only [List.cons_append, List.nil_append, parseStringBody_unicodeEscape]
      rw [hexVal_hexDigitCh (by omega : c.toNat / 16 < 16),
        hexVal_hexDigitCh (by omega : c.toNat % 16 < 16)]
      simp only [Option.some_bind, ih rest]
      have harith : ((0 * 16 + 0) * 16 + c.toNat / 16) * 16 + c.toNat % 16 = c.toNat := by
        omega
      rw [harith, Char.ofNat_toNat]
    · simp only [List.cons_append, List.nil_append]
      rw [parseStringBody]
      rw [if_neg h1, if_neg h2, ih rest]
      rfl

/-! ### Round-trip: fuel accounting -/

mutual

/-- Fuel sufficient for `parseValue` to parse the printed form of a value. -/
def jsize : Json → Nat
  | .null => 1
  | .bool _ => 1
  | .int _ => 1
  | .str _ => 1
  | .arr xs => 1 + jlistSize xs
  | .obj ms => 1 + jmembersSize ms

/-- Fuel sufficient for `parseArrItems` / `parseArrRest` on a printed list. -/
def jlistSize : JsonList → Nat
  | .nil => 1
  | .cons x xs => 1 + max (jsize x) (jlistSize xs)

/-- Fuel sufficient for `parseObjItems` / `parseObjRest` on printed members. -/
def jmembersSize : JsonMembers → Nat
  | .nil => 1
  | .cons _ v ms => 1 + max (1 + jsize v) (jmembersSize ms)

end

theorem jsize_pos (j : Json) : 1 ≤ jsize j := by
  cases j <;> (simp only [jsize]; omega)

theorem jlistSize_pos (xs : JsonList) : 1 ≤ jlistSize xs := by
  cases xs <;> (simp only [jlistSize]; omega)

theorem jmembersSize_pos (ms : JsonMembers) : 1 ≤ jmembersSize ms := by
  cases ms <;> (simp only [jmembersSize]; omega)

mutual

theorem jsize_le_length : ∀ j : Json, jsize j ≤ (jchars j).length + 1
  | .null => by simp [jsize, jchars]
  | .bool b => by cases b <;> simp [jsize, jchars]
  | .int i => by simp only [jsize]; omega
  | .str s => by simp [jsize, jchars]
  | .arr xs => by
      have h := jlistSize_le_length xs
      simp only [jsize, jchars, List.length_cons, List.length_append,
        List.length_singleton]
      omega
  | .obj ms => by
      have h := jmembersSize_le_length ms
      simp only [jsize, jchars, List.length_cons, List.length_append,
        List.length_singleton]
      omega

theorem jlistSize_le_length : ∀ xs : JsonList,
    jlistSize xs ≤ (arrRestChars xs).length + 1 ∧
    jlistSize xs ≤ (arrChars xs).length + 2
  | .nil => by simp [jlistSize, arrRestChars, arrChars]
  | .cons x xs => by
      have hx := jsize_le_length x
      have hxs := jlistSize_le_length xs
      simp only [jlistSize, arrRestChars, arrChars, List.length_cons,
        List.length_append]
      omega

theorem jmembersSize_le_length : ∀ ms : JsonMembers,
    jmembersSize ms ≤ (objRestChars ms).length + 1 ∧
    jmembersSize ms ≤ (objChars ms).length + 2
  | .nil => by simp [jmembersSize, objRestChars, objChars]
  | .cons k v ms => by
      have hv := jsize_le_length v
      have hms := jmembersSize_le_length ms
      simp only [jmembersSize, objRestChars, objChars, List.length_cons,
        List.length_append]
      omega

end

/-! ### Round-trip: head characters and whitespace -/

/-- The characters that can start a serialized JSON value. -/
def valueHeadCh (c : Char) : Bool :=
  c = 'n' ∨ c = 't' ∨ c = 'f' ∨ c = '"' ∨ c = '[' ∨ c = '{' ∨ c = '-' ∨ isDigitCh c

theorem jchars_cons (j : Json) :
    ∃ c t, jchars j = c :: t ∧ valueHeadCh c = true := by
  cases j with
  | null => exact ⟨'n', _, rfl, by decide⟩
  | bool b => cases b
              · exact ⟨'f', _, rfl, by decide⟩
              · exact ⟨'t', _, rfl, by decide⟩
  | int i =>
      by_cases hi : i < 0
      · refine ⟨'-', natChars i.natAbs, ?_, by decide⟩
        simp [jchars, intChars, if_pos hi]
      · obtain ⟨c, t, hct, hc⟩ := natChars_cons i.toNat
        refine ⟨c, t, ?_, ?_⟩
        · simp [jchars, intChars, if_neg hi, hct]
        · simp [valueHeadCh, hc]
  | str s => exact ⟨'"', _, rfl, by decide⟩
  | arr xs => exact ⟨'[', _, rfl, by decide⟩
  | obj ms => exact ⟨'{', _, rfl, by decide⟩

theorem valueHeadCh_not_ws {c : Char} (h : valueHeadCh c = true) :
    isWsCh c = false := by
  simp only [valueHeadCh, Bool.or_eq_true, decide_eq_true_eq] at h
  rcases h with h | h | h | h | h | h | h | h
  all_goals first
    | (subst h; decide)
    | (simp only [isDigitCh, decide_eq_true_eq] at h
       simp only [isWsCh, decide_eq_false_iff_not]
       rintro (hc | hc | hc | hc) <;> (subst hc; revert h; decide))

theorem valueHeadCh_ne {c : Char} (h : valueHeadCh c = true) :
    c ≠ ']' ∧ c ≠ '}' ∧ c ≠ ',' := by
  simp only [valueHeadCh, Bool.or_eq_true, decide_eq_true_eq] at h
  rcases h with h | h | h | h | h | h | h | h
  all_goals first
    | (subst h; exact ⟨by decide, by decide, by decide⟩)
    | (simp only [isDigitCh, decide_eq_true_eq] at h
       refine ⟨?_, ?_, ?_⟩ <;> (intro hc; subst hc; revert h; decide))

theorem skipWs_not_ws {c : Char} (h : isWsCh c = false) (l : List Char) :
    skipWs (c :: l) = c :: l := by
  simp [skipWs, h]

theorem skipWs_cons_head {j : Json} (L : List Char) :
    skipWs (jchars j ++ L) = jchars j ++ L := by
  obtain ⟨c, t, hct, hc⟩ := jchars_cons j
  rw [hct, List.cons_append, skipWs_not_ws (valueHeadCh_not_ws hc)]

theorem skipWs_space (l : List Char) : skipWs (' ' :: l) = skipWs l := by
  simp [skipWs, isWsCh]

/-- After a printed array element comes `,` or `]`: never a digit, never
whitespace. -/
theorem arrRest_ctx (xs : JsonList) (rest : List Char) :
    noDigitHead (arrRestChars xs ++ (']' :: rest)) = true ∧
    skipWs (arrRestChars xs ++ (']' :: rest)) = arrRestChars xs ++ (']' :: rest) := by
  cases xs with
  | nil =>
      constructor
      · simp [arrRestChars, noDigitHead, isDigitCh]
      · simp only [arrRestChars, List.nil_append]
        exact skipWs_not_ws (by decide) rest
  | cons x xs =>
      constructor
      · simp [arrRestChars, noDigitHead, isDigitCh]
      · simp only [arrRestChars, List.cons_append]
        exact skipWs_not_ws (by decide) _

/-- After a printed object member comes `,` or `}`: never a digit, never
whitespace. -/
theorem objRest_ctx (ms : JsonMembers) (rest : List Char) :
    noDigitHead (objRestChars ms ++ ('}' :: rest)) = true ∧
    skipWs (objRestChars ms ++ ('}' :: rest)) = objRestChars ms ++ ('}' :: rest) := by
  cases ms with
  | nil =>
      constructor
      · simp [objRestChars, noDigitHead, isDigitCh]
      · simp only [objRestChars, List.nil_append]
        exact skipWs_not_ws (by decide) rest
  | cons k v ms =>
      constructor
      · simp [objRestChars, noDigitHead, isDigitCh]
      · simp only [objRestChars, List.cons_append]
        exact skipWs_not_ws (by decide) _

theorem skipWs_arrBody (xs : JsonList) (rest : List Char) :
    skipWs (arrChars xs ++ (']' :: rest)) = arrChars xs ++ (']' :: rest) := by
  cases xs with
  | nil =>
      simp only [arrChars, List.nil_append]
      exact skipWs_not_ws (by decide) rest
  | cons x xs =>
      simp only [arrChars, List.append_assoc]
      exact skipWs_cons_head _

theorem skipWs_objBody (ms : JsonMembers) (rest : List Char) :
    skipWs (objChars ms ++ ('}' :: rest)) = objChars ms ++ ('}' :: rest) := by
  cases ms with
  | nil =>
      simp only [objChars, List.nil_append]
      exact skipWs_not_ws (by decide) rest
  | cons k v ms =>
      simp only [objChars, strChars, List.cons_append, List.append_assoc]
      exact skipWs_not_ws (by decide) _

/-! ### Round-trip: one-step reductions of the parsers -/

theorem isDigitCh_not_ws {c : Char} (h : isDigitCh c = true) : isWsCh c = false := by
  simp only [isDigitCh, decide_eq_true_eq] at h
  simp only [isWsCh, decide_eq_false_iff_not]
  rintro (hc | hc | hc | hc) <;> (subst hc; revert h; decide)

theorem parseValue_nullTok (g : Nat) (r : List Char) :
    parseValue (g + 1) ('n' :: 'u' :: 'l' :: 'l' :: r) = some (.null, r) := rfl

theorem parseValue_trueTok (g : Nat) (r : List Char) :
    parseValue (g + 1) ('t' :: 'r' :: 'u' :: 'e' :: r) = some (.bool true, r) := rfl

theorem parseValue_falseTok (g : Nat) (r : List Char) :
    parseValue (g + 1) ('f' :: 'a' :: 'l' :: 's' :: 'e' :: r) = some (.bool false, r) := rfl

theorem parseValue_quote (g : Nat) (l : List Char) :
    parseValue (g + 1) ('"' :: l) =
      (parseStringBody l).bind fun p => some (.str (String.mk p.1), p.2) := rfl

theorem parseValue_lbrack (g : Nat) (l : List Char) :
    parseValue (g + 1) ('[' :: l) = parseArrItems g (skipWs l) := rfl

theorem parseValue_lbrace (g : Nat) (l : List Char) :
    parseValue (g + 1) ('{' :: l) = parseObjItems g (skipWs l) := rfl

theorem parseValue_minus (g : Nat) (l : List Char) :
    parseValue (g + 1) ('-' :: l) =
      (parseDigits l).bind fun p => some (.int (-(p.1 : Int)), p.2) := rfl

theorem parseValue_digitHead (g : Nat) (c : Char) (l : List Char)
    (hc : isDigitCh c = true) :
    parseValue (g + 1) (c :: l) =
      (parseDigits (c :: l)).bind fun p => some (.int (p.1 : Int), p.2) := by
  rw [parseValue.eq_2, skipWs_not_ws (isDigitCh_not_ws hc)]
  split
  all_goals try (next heq =>
    rw [List.cons.injEq] at heq
    obtain ⟨rfl, -⟩ := heq
    exact absurd hc (by decide))
  rfl

theorem parseArrItems_close (g : Nat) (r : List Char) :
    parseArrItems (g + 1) (']' :: r) = some (.arr .nil, r) := rfl

theorem parseArrItems_headCase (g : Nat) (c : Char) (l : List Char) (hc : c ≠ ']') :
    parseArrItems (g + 1) (c :: l) =
      (parseValue g (c :: l)).bind fun p =>
        (parseArrRest g (skipWs p.2)).bind fun q =>
          some (.arr (.cons p.1 q.1), q.2) := by
  rw [parseArrItems.eq_3]
  · rfl
  · intro rest h
    rw [List.cons.injEq] at h
    exact hc h.1

theorem parseArrRest_close (g : Nat) (r : List Char) :
    parseArrRest (g + 1) (']' :: r) = some (.nil, r) := rfl

theorem parseArrRest_comma (g : Nat) (l : List Char) :
    parseArrRest (g + 1) (',' :: l) =
      (parseValue g (skipWs l)).bind fun p =>
        (parseArrRest g (skipWs p.2)).bind fun q =>
          some (.cons p.1 q.1, q.2) := rfl

theorem parseMember_quote (g : Nat) (l : List Char) :
    parseMember (g + 1) ('"' :: l) =
      (parseStringBody l).bind fun p =>
        match skipWs p.2 with
        | ':' :: r2 =>
            (parseValue g (skipWs r2)).bind fun q =>
              some ((String.mk p.1, q.1), q.2)
        | _ => none := rfl

theorem parseObjItems_close (g : Nat) (r : List Char) :
    parseObjItems (g + 1) ('}' :: r) = some (.obj .nil, r) := rfl

theorem parseObjItems_quote (g : Nat) (l : List Char) :
    parseObjItems (g + 1) ('"' :: l) =
      (parseMember g ('"' :: l)).bind fun p =>
        (parseObjRest g (skipWs p.2)).bind fun q =>
          some (.obj (.cons p.1.1 p.1.2 q.1), q.2) := rfl

theorem parseObjRest_close (g : Nat) (r : List Char) :
    parseObjRest (g + 1) ('}' :: r) = some (.nil, r) := rfl

theorem parseObjRest_comma (g : Nat) (l : List Char) :
    parseObjRest (g + 1) (',' :: l) =
      (parseMember g (skipWs l)).bind fun p =>
        (parseObjRest g (skipWs p.2)).bind fun q =>
          some (.cons p.1.1 p.1.2 q.1, q.2) := rfl

/-! ### Round-trip: the main theorem -/

/-- With enough fuel, each parser inverts the corresponding printer, leaving
the appended continuation untouched. -/
theorem parse_print (fuel : Nat) :
    (∀ j rest, jsize j ≤ fuel → noDigitHead rest = true →
        parseValue fuel (jchars j ++ rest) = some (j, rest)) ∧
    (∀ xs rest, jlistSize xs ≤ fuel →
        parseArrItems fuel (arrChars xs ++ (']' :: rest)) = some (.arr xs, rest)) ∧
    (∀ xs rest, jlistSize xs ≤ fuel →
        parseArrRest fuel (arrRestChars xs ++ (']' :: rest)) = some (xs, rest)) ∧
    (∀ k v rest, 1 + jsize v ≤ fuel → noDigitHead rest = true →
        parseMember fuel (strChars k ++ (':' :: ' ' :: (jchars v ++ rest)))
          = some ((k, v), rest)) ∧
    (∀ ms rest, jmembersSize ms ≤ fuel →
        parseObjItems fuel (objChars ms ++ ('}' :: rest)) = some (.obj ms, rest)) ∧
    (∀ ms rest, jmembersSize ms ≤ fuel →
        parseObjRest fuel (objRestChars ms ++ ('}' :: rest)) = some (ms, rest)) := by
  induction fuel using Nat.strong_induction_on with
  | _ fuel ih =>
    cases fuel with
    | zero =>
        refine ⟨?_, ?_, ?_, ?_, ?_, ?_⟩
        · intro j _ hsz _
          have := jsize_pos j
          omega
        · intro xs _ hsz
          have := jlistSize_pos xs
          omega
        · intro xs _ hsz
          have := jlistSize_pos xs
          omega
        · intro k v _ hsz _
          have := jsize_pos v
          omega
        · intro ms _ hsz
          have := jmembersSize_pos ms
          omega
        · intro ms _ hsz
          have := jmembersSize_pos ms
          omega
    | succ g =>
        obtain ⟨pv, pai, par, pm, poi, por⟩ := ih g (by omega)
        refine ⟨?_, ?_, ?_, ?_, ?_, ?_⟩
        · -- parseValue
          intro j rest hsz hrest
          cases j with
          | null => exact parseValue_nullTok g rest
          | bool b =>
              cases b
              · exact parseValue_falseTok g rest
              · exact parseValue_trueTok g rest
          | str s =>
              simp only [jchars, strChars, List.cons_append, List.append_assoc,
                List.singleton_append]
              rw [parseValue_quote, parseStringBody_escape]
              rfl
          | int i =>
              by_cases hi : i < 0
              · simp only [jchars, intChars, if_pos hi, List.cons_append]
                rw [parseValue_minus, parseDigits_natChars _ _ hrest]
                have hval : -((i.natAbs : Nat) : Int) = i := by omega
                simp only [Option.some_bind, hval]
              · obtain ⟨c, t, hct, hc⟩ := natChars_cons i.toNat
                simp only [jchars, intChars, if_neg hi]
                rw [hct, List.cons_append, parseValue_digitHead g c _ hc,
                  ← List.cons_append, ← hct, parseDigits_natChars _ _ hrest]
                have hval : ((i.toNat : Nat) : Int) = i := by omega
                simp only [Option.some_bind, hval]
          | arr xs =>
              simp only [jchars, List.cons_append, List.append_assoc,
                List.singleton_append]
              rw [parseValue_lbrack, skipWs_arrBody]
              refine pai xs rest ?_
              simp only [jsize] at hsz
              omega
          | obj ms =>
              simp only [jchars, List.cons_append, List.append_assoc,
                List.singleton_append]
              rw [parseValue_lbrace, skipWs_objBody]
              refine poi ms rest ?_
              simp only [jsize] at hsz
              omega
        · -- parseArrItems
          intro xs rest hsz
          cases xs with
          | nil => exact parseArrItems_close g rest
          | cons x xs =>
              simp only [jlistSize] at hsz
              have hszx : jsize x ≤ g ∧ jlistSize xs ≤ g := by
                have hmax : max (jsize x) (jlistSize xs) ≤ g := by omega
                exact Nat.max_le.mp hmax
              simp only [arrChars, List.append_assoc]
              obtain ⟨c, t, hct, hc⟩ := jchars_cons x
              obtain ⟨hne, -, -⟩ := valueHeadCh_ne hc
              rw [hct, List.cons_append, parseArrItems_headCase g c _ hne,
                ← List.cons_append, ← hct,
                pv x _ hszx.1 (arrRest_ctx xs rest).1]
              simp only [Option.some_bind]
              rw [(arrRest_ctx xs rest).2, par xs rest hszx.2]
              rfl
        · -- parseArrRest
          intro xs rest hsz
          cases xs with
          | nil => exact parseArrRest_close g rest
          | cons x xs =>
              simp only [jlistSize] at hsz
              have hszx : jsize x ≤ g ∧ jlistSize xs ≤ g := by
                have hmax : max (jsize x) (jlistSize xs) ≤ g := by omega
                exact Nat.max_le.mp hmax
              simp only [arrRestChars, List.cons_append, List.append_assoc]
              rw [parseArrRest_comma, skipWs_space, skipWs_cons_head,
                pv x _ hszx.1 (arrRest_ctx xs rest).1]
              simp only [Option.some_bind]
              rw [(arrRest_ctx xs rest).2, par xs rest hszx.2]
              rfl
        · -- parseMember
          intro k v rest hsz hrest
          simp only [strChars, List.cons_append, List.append_assoc,
            List.singleton_append]
          rw [parseMember_quote, parseStringBody_escape]
          simp only [Option.some_bind, List.nil_append]
          rw [skipWs_not_ws (by decide : isWsCh ':' = false)]
          show (parseValue g (skipWs (' ' :: (jchars v ++ rest)))).bind
              (fun q => some ((String.mk k.data, q.1), q.2)) = some ((k, v), rest)
          rw [skipWs_space, skipWs_cons_head, pv v rest (by omega) hrest]
          rfl
        · -- parseObjItems
          intro ms rest hsz
          cases ms with
          | nil => exact parseObjItems_close g rest
          | cons k v ms =>
              simp only [jmembersSize] at hsz
              have hszv : 1 + jsize v ≤ g ∧ jmembersSize ms ≤ g := by
                have hmax : max (1 + jsize v) (jmembersSize ms) ≤ g := by omega
                exact Nat.max_le.mp hmax
              have hm := pm k v (objRestChars ms ++ ('}' :: rest)) hszv.1
                (objRest_ctx ms rest).1
              simp only [strChars, List.cons_append, List.append_assoc,
                List.singleton_append] at hm ⊢
              simp only [objChars, strChars, List.cons_append, List.append_assoc,
                List.singleton_append]
              rw [parseObjItems_quote, hm]
              simp only [Option.some_bind]
              rw [(objRest_ctx ms rest).2, por ms rest hszv.2]
              rfl
        · -- parseObjRest
          intro ms rest hsz
          cases ms with
          | nil => exact parseObjRest_close g rest
          | cons k v ms =>
              simp only [jmembersSize] at hsz
              have hszv : 1 + jsize v ≤ g ∧ jmembersSize ms ≤ g := by
                have hmax : max (1 + jsize v) (jmembersSize ms) ≤ g := by omega
                exact Nat.max_le.mp hmax
              have hm := pm k v (objRestChars ms ++ ('}' :: rest)) hszv.1
                (objRest_ctx ms rest).1
              simp only [strChars, List.cons_append, List.append_assoc,
                List.singleton_append] at hm
              simp only [objRestChars, strChars, List.cons_append,
                List.append_assoc, List.singleton_append]
              rw [parseObjRest_comma, skipWs_space,
                skipWs_not_ws (by decide : isWsCh '"' = false), hm]
              simp only [Option.some_bind]
              rw [(objRest_ctx ms rest).2, por ms rest hszv.2]
              rfl

/-- `json.loads` inverts `json.dumps` on every JSON value of the model. -/
theorem loads_dumpsJson (j : Json) : loads (dumpsJson j) = some j := by
  have hb := jsize_le_length j
  have h := (parse_print ((jchars j).length + 1)).1 j [] (by omega) rfl
  rw [List.append_nil] at h
  rw [loads]
  rw [show (dumpsJson j).data = jchars j from rfl,
    show (dumpsJson j).length = (jchars j).length from rfl, h]
  rfl

/-- `json.loads` inverts `json.dumps` on every event dict. -/
theorem loads_dumps (ev : JsonMembers) : loads (dumps ev) = some (.obj ev) :=
  loads_dumpsJson (.obj ev)

/-! ## The broker module (`rasa/core/broker.py`)

Python exceptions relevant to the embedded code paths. A function that can
raise returns `Except PyError _`. -/

inductive PyError where
  | attributeError
  | importError
  | typeError
  | indexError
deriving DecidableEq

/-- Python truthiness of an optional string (`None` and `""` are falsy). -/
def truthyStr : Option String → Bool
  | none => false
  | some s => !s.isEmpty

/-- Python `str.lower()` (ASCII case folding suffices for the dispatch
strings involved). -/
def strLower (s : String) : String := String.mk (s.data.map Char.toLower)

/-- Python `str.startswith(prefix)`. -/
def pyStartsWith (s pre : String) : Bool := pre.data.isPrefixOf s.data

/-- The keyword arguments forwarded from a configuration record to the
selected adapter constructor (`**broker_config.kwargs`).  An outer `none`
means the key is absent from the record (so the constructor default
applies); for `username`/`password` the inner option is the passed value,
which may itself be Python `None`. -/
structure Kwargs where
  username : Option (Option String) := none
  password : Option (Option String) := none
  port : Option Nat := none
  queue : Option String := none
  loglevel : Option Nat := none
  path : Option String := none
  dialect : Option String := none
  db : Option String := none
  topic : Option String := none
  security_protocol : Option String := none
  sasl_username : Option String := none
  sasl_password : Option String := none
  ssl_cafile : Option String := none
  ssl_certfile : Option String := none
  ssl_keyfile : Option String := none
  ssl_check_hostname : Option Bool := none
deriving DecidableEq

/-- Modelled from the spec: `EndpointConfig` (from `rasa.utils.endpoints`,
not under `src/`) is the Configuration Record `{type, url, **kwargs}`;
the factory reads only `type`, `url` and forwards `kwargs` verbatim. -/
structure EndpointConfig where
  type : Option String := none
  url : Option String := none
  kwargs : Kwargs := {}
deriving DecidableEq

/-! ### Queue Adapter (`PikaProducer`) -/

/-- `pika.PlainCredentials`. -/
structure PlainCredentials where
  username : String
  password : String
deriving DecidableEq

/-- Environment variables read by `create_rabbitmq_ssl_options`. -/
structure RabbitEnv where
  RABBITMQ_SSL_CLIENT_CERTIFICATE : Option String := none
  RABBITMQ_SSL_CLIENT_KEY : Option String := none
  RABBITMQ_SSL_CA_FILE : Option String := none

/-- `pika.SSLOptions`: the verification context built from the environment
certificate material, bound to a server hostname. -/
structure SSLOptions where
  ca_file : Option String
  client_certificate_path : String
  client_key_path : String
  server_hostname : Option String
deriving DecidableEq

/-- `create_rabbitmq_ssl_options` (broker.py lines 66-112): requires both the
client certificate and the client key paths to be set (and non-empty, by
Python truthiness); the CA file is optional. -/
def create_rabbitmq_ssl_options (env : RabbitEnv)
    (rabbitmq_host : Option String) : Option SSLOptions :=
  let client_certificate_path := env.RABBITMQ_SSL_CLIENT_CERTIFICATE
  let client_key_path := env.RABBITMQ_SSL_CLIENT_KEY
  if truthyStr client_certificate_path ∧ truthyStr client_key_path then
    some { ca_file := env.RABBITMQ_SSL_CA_FILE
           client_certificate_path := client_certificate_path.getD ""
           client_key_path := client_key_path.getD ""
           server_hostname := rabbitmq_host }
  else
    none

/-- The two kinds of `pika` connection-parameter objects. -/
inductive PikaParameters where
  | urlParameters (url : String) (connection_attempts : Nat) (retry_delay : Nat)
  | connectionParameters (host : String) (port : Nat)
      (credentials : Option PlainCredentials) (connection_attempts : Nat)
      (retry_delay : Nat) (ssl_options : Option SSLOptions)
deriving DecidableEq

/-- The (dynamically typed) value the code passes to
`pika.BlockingConnection`: connection parameters, or — on the buggy path —
the bare credentials object. -/
inductive ConnArg where
  | params (p : PikaParameters)
  | creds (c : PlainCredentials)
deriving DecidableEq

structure PikaProducer where
  queue : String
  host : Option String
  port : Nat
  credentials : Option PlainCredentials
deriving DecidableEq

/-- `PikaProducer.__init__` (lines 116-137).  `username` and `password` are
required positional parameters (no defaults), so a kwargs record lacking
either key raises `TypeError`; credentials are built only when both values
are truthy.  (The `logging.getLogger("pika").setLevel(loglevel)` side
effect touches no file handler and is not modelled.) -/
def PikaProducer.construct (host : Option String) (kw : Kwargs) :
    Except PyError PikaProducer :=
  match kw.username, kw.password with
  | some username, some password =>
      .ok { queue := kw.queue.getD "rasa_core_events"
            host
            port := kw.port.getD 5672
            credentials :=
              if truthyStr username ∧ truthyStr password then
                some { username := username.getD "", password := password.getD "" }
              else
                none }
  | _, _ => .error .typeError

/-- `PikaProducer._open_connection` (lines 153-175), up to the argument the
code hands to `pika.BlockingConnection` (the connection handshake itself is
an external `pika` primitive, out of scope per the spec).  Note the URL
branch: after building `pika.URLParameters` with
`connection_attempts = 20` and `retry_delay = 5`, the code executes
`parameters = self.credentials` when credentials exist, replacing the whole
parameter object with the bare credentials. -/
def PikaProducer.open_connection (p : PikaProducer) (env : RabbitEnv) :
    Except PyError ConnArg :=
  match p.host with
  | none => .error .attributeError
  | some h =>
      if pyStartsWith h "amqp" then
        let parameters := PikaParameters.urlParameters h 20 5
        match p.credentials with
        | some c => .ok (.creds c)
        | none => .ok (.params parameters)
      else
        .ok (.params (.connectionParameters h p.port p.credentials 20 5
          (create_rabbitmq_ssl_options env (some h))))

/-! ### The `logging` registry and the File Adapter (`FileProducer`)

`logging.getLogger(name)` returns a process-global logger object per name;
`FileProducer` instances therefore share one logger object.  We model the
registry as an association list keyed by logger name, and files as the
lists of lines written to each path. -/

/-- A `logging.FileHandler` with the `"%(message)s"` formatter. -/
structure FileHandlerM where
  path : String
deriving DecidableEq

/-- A logger object: `level` is `none` for NOTSET, `propagate` defaults to
true, handlers accumulate via `addHandler`. -/
structure PyLogger where
  level : Option Nat := none
  propagate : Bool := true
  handlers : List FileHandlerM := []
deriving DecidableEq

def lookupAssoc {α : Type} : List (String × α) → String → Option α
  | [], _ => none
  | (k, v) :: rest, key => if k = key then some v else lookupAssoc rest key

def updateAssoc {α : Type} : List (String × α) → String → α → List (String × α)
  | [], key, v => [(key, v)]
  | (k, w) :: rest, key, v =>
      if k = key then (key, v) :: rest else (k, w) :: updateAssoc rest key v

/-- The process-global logger registry. -/
structure LoggingState where
  loggers : List (String × PyLogger) := []

def LoggingState.getLogger? (st : LoggingState) (name : String) : Option PyLogger :=
  lookupAssoc st.loggers name

def LoggingState.setLogger (st : LoggingState) (name : String) (lg : PyLogger) :
    LoggingState :=
  { loggers := updateAssoc st.loggers name lg }

/-- `logging.getLogger(name)`: the registered logger, or a fresh one
registered under `name`. -/
def getLogger (st : LoggingState) (name : String) : PyLogger × LoggingState :=
  match st.getLogger? name with
  | some lg => (lg, st)
  | none => ({}, st.setLogger name {})

/-- Files as lines appended per path. -/
def FileSystem : Type := String → List String

def FileSystem.appendLine (fs : FileSystem) (path line : String) : FileSystem :=
  fun p => if p = path then fs p ++ [line] else fs p

/-- The effective level used by `Logger.isEnabledFor`: an explicitly set
level, else the ancestor default (the root logger's WARNING = 30). -/
def PyLogger.effectiveLevel (lg : PyLogger) : Nat := lg.level.getD 30

/-- `logger.info(msg)`: when INFO (20) is enabled, each attached handler
writes the formatted record — one line holding exactly the message, given
the `"%(message)s"` formatter — and, with `propagate` set, the root
logger's handlers write it too. -/
def logInfo (st : LoggingState) (name : String) (msg : String) (fs : FileSystem) :
    FileSystem :=
  match st.getLogger? name with
  | none => fs
  | some lg =>
      if 20 ≥ lg.effectiveLevel then
        let fs1 := lg.handlers.foldl (fun acc h => acc.appendLine h.path msg) fs
        if lg.propagate then
          match st.getLogger? "root" with
          | some rt => rt.handlers.foldl (fun acc h => acc.appendLine h.path msg) fs1
          | none => fs1
        else fs1
      else fs

structure FileProducer where
  path : String
  /-- The instance attribute `event_logger` aliases the process-global logger
  object; we record the registry name it resolves to. -/
  event_logger : String
deriving DecidableEq

def FileProducer.DEFAULT_LOG_FILE_NAME : String := "rasa_event.log"

/-- `FileProducer.__init__` + `_event_logger` (lines 195-223): resolve the
path (`path or DEFAULT_LOG_FILE_NAME`, Python truthiness), fetch the global
logger named `"event-logger"`, set its level to INFO (20), attach a fresh
append-mode `FileHandler` for the path, and disable propagation. -/
def FileProducer.construct (path : Option String) (st : LoggingState) :
    FileProducer × LoggingState :=
  let path := if truthyStr path then path.getD "" else FileProducer.DEFAULT_LOG_FILE_NAME
  let (query_logger, st) := getLogger st "event-logger"
  let query_logger :=
    { query_logger with
        level := some 20
        propagate := false
        handlers := query_logger.handlers ++ [{ path }] }
  ({ path, event_logger := "event-logger" }, st.setLogger "event-logger" query_logger)

/-- `FileProducer.publish` (lines 225-229): `event_logger.info(json.dumps(event))`
followed by `event_logger.handlers[0].flush()`.  Handler emission is
write-through in the model (`logging.StreamHandler.emit` flushes per
record), so the explicit flush only fails — with `IndexError` — when the
logger has no handlers. -/
def FileProducer.publish (f : FileProducer) (event : JsonMembers)
    (st : LoggingState) (fs : FileSystem) : FileSystem × Except PyError Unit :=
  let fs' := logInfo st f.event_logger (dumps event) fs
  match st.getLogger? f.event_logger with
  | some lg =>
      match lg.handlers with
      | [] => (fs', .error .indexError)
      | _ :: _ => (fs', .ok ())
  | none => (fs', .error .attributeError)

/-! ### Stream Adapter (`KafkaProducer`) -/

/-- The keyword arguments `_create_producer` passes to
`kafka.KafkaProducer(...)`.  An outer `none` records a keyword the branch
does not pass (the client library default applies); `some v` records a
passed value, which may itself be Python `None`. -/
structure KafkaClientConfig where
  bootstrap_servers : List (Option String)
  /-- Both branches pass the same `lambda v: json.dumps(v).encode("utf-8")`. -/
  value_serializer_json_utf8 : Bool
  sasl_plain_username : Option (Option String) := none
  sasl_plain_password : Option (Option String) := none
  sasl_mechanism : Option String := none
  security_protocol : String
  ssl_cafile : Option (Option String) := none
  ssl_certfile : Option (Option String) := none
  ssl_keyfile : Option (Option String) := none
  ssl_check_hostname : Option Bool := none
deriving DecidableEq

structure KafkaProducer where
  producer : Option KafkaClientConfig
  host : Option String
  topic : String
  security_protocol : String
  sasl_username : Option String
  sasl_password : Option String
  ssl_cafile : Option String
  ssl_certfile : Option String
  ssl_keyfile : Option String
  ssl_check_hostname : Bool
deriving DecidableEq

/-- `KafkaProducer.__init__` (lines 233-258): stores all fields and leaves
`producer = None`.  (The `logging.getLogger("kafka").setLevel(loglevel)`
side effect touches no file handler and is not modelled.) -/
def KafkaProducer.construct (host : Option String) (kw : Kwargs) : KafkaProducer :=
  { producer := none
    host
    topic := kw.topic.getD "rasa_core_events"
    security_protocol := kw.security_protocol.getD "SASL_PLAINTEXT"
    sasl_username := kw.sasl_username
    sasl_password := kw.sasl_password
    ssl_cafile := kw.ssl_cafile
    ssl_certfile := kw.ssl_certfile
    ssl_keyfile := kw.ssl_keyfile
    ssl_check_hostname := kw.ssl_check_hostname.getD false }

/-- `KafkaProducer._create_producer` (lines 272-293): builds a client for
the `"SASL_PLAINTEXT"` or `"SSL"` protocols; any other protocol string
leaves `self.producer` untouched (hence `None`).  In the SSL branch,
`ssl_check_hostname` is passed as the literal `False`, not the stored
attribute. -/
def KafkaProducer.create_producer (p : KafkaProducer) : KafkaProducer :=
  if p.security_protocol = "SASL_PLAINTEXT" then
    let cfg : KafkaClientConfig :=
      { bootstrap_servers := [p.host]
        value_serializer_json_utf8 := true
        sasl_plain_username := some p.sasl_username
        sasl_plain_password := some p.sasl_password
        sasl_mechanism := some "PLAIN"
        security_protocol := p.security_protocol }
    { p with producer := some cfg }
  else if p.security_protocol = "SSL" then
    let cfg : KafkaClientConfig :=
      { bootstrap_servers := [p.host]
        value_serializer_json_utf8 := true
        ssl_cafile := some p.ssl_cafile
        ssl_certfile := some p.ssl_certfile
        ssl_keyfile := some p.ssl_keyfile
        ssl_check_hostname := some false
        security_protocol := p.security_protocol }
    { p with producer := some cfg }
  else
    p

/-- `KafkaProducer.publish` (lines 267-270): `_create_producer`, then
`self.producer.send(self.topic, event)`, then `self.producer.close()`.
Returns the `(topic, event)` messages handed to `send` together with the
outcome; when no producer was created, `self.producer` is `None` and the
attribute access in `_publish` raises before anything is sent. -/
def KafkaProducer.publish (p : KafkaProducer) (event : JsonMembers) :
    List (String × JsonMembers) × Except PyError KafkaProducer :=
  let p' := p.create_producer
  match p'.producer with
  | none => ([], .error .attributeError)
  | some _ => ([(p'.topic, event)], .ok p')

/-! ### Relational Adapter (`SQLProducer`) -/

/-- A row of the `events` table (the surrogate integer `id` is assigned by
the database and plays no role in the claims). -/
structure SQLBrokerEvent where
  sender_id : Option Json
  data : String
deriving DecidableEq

/-- A SQLAlchemy session: rows `add`ed but not yet committed, and rows
committed to the `events` table. -/
structure SQLSession where
  pending : List SQLBrokerEvent := []
  committed : List SQLBrokerEvent := []
deriving DecidableEq

def SQLSession.add (s : SQLSession) (row : SQLBrokerEvent) : SQLSession :=
  { s with pending := s.pending ++ [row] }

def SQLSession.commit (s : SQLSession) : SQLSession :=
  { pending := [], committed := s.committed ++ s.pending }

/-- `SQLProducer.__init__` stores the connection parameters; the engine/
session construction and the idempotent `create_all` are external SQLAlchemy
primitives (the session state is passed explicitly to `publish`). -/
structure SQLProducer where
  dialect : String
  host : Option String
  port : Option Nat
  db : String
  username : Option String
  password : Option String
deriving DecidableEq

/-- `SQLProducer.__init__` (lines 321-342), parameter resolution only. -/
def SQLProducer.construct (host : Option String) (kw : Kwargs) : SQLProducer :=
  { dialect := kw.dialect.getD "sqlite"
    host
    port := kw.port
    db := kw.db.getD "events.db"
    username := kw.username.getD none
    password := kw.password.getD none }

/-- `SQLProducer.publish` (lines 348-355): add one `SQLBrokerEvent` row —
`sender_id = event.get("sender_id")`, `data = json.dumps(event)` — and
commit immediately. -/
def SQLProducer.publish (_p : SQLProducer) (event : JsonMembers)
    (session : SQLSession) : SQLSession :=
  (session.add { sender_id := event.get "sender_id", data := dumps event }).commit

/-! ### The channel type and the per-class `from_endpoint_config` builders -/

inductive EventChannel where
  | pika (p : PikaProducer)
  | file (f : FileProducer)
  | kafka (k : KafkaProducer)
  | sql (s : SQLProducer)
  /-- A channel produced by a dynamically loaded implementation. -/
  | custom (tag : String)
deriving DecidableEq

/-- `PikaProducer.from_endpoint_config` (lines 139-146). -/
def PikaProducer.from_endpoint_config (broker_config : Option EndpointConfig) :
    Except PyError (Option EventChannel) :=
  match broker_config with
  | none => .ok none
  | some cfg => (PikaProducer.construct cfg.url cfg.kwargs).map fun p => some (.pika p)

/-- `FileProducer.from_endpoint_config` (lines 199-207); `cls(**kwargs)`
reads only the `path` keyword. -/
def FileProducer.from_endpoint_config (broker_config : Option EndpointConfig)
    (st : LoggingState) : Except PyError (Option EventChannel) × LoggingState :=
  match broker_config with
  | none => (.ok none, st)
  | some cfg =>
      let (f, st') := FileProducer.construct cfg.kwargs.path st
      (.ok (some (.file f)), st')

/-- `KafkaProducer.from_endpoint_config` (lines 260-265). -/
def KafkaProducer.from_endpoint_config (broker_config : Option EndpointConfig) :
    Except PyError (Option EventChannel) :=
  match broker_config with
  | none => .ok none
  | some cfg => .ok (some (.kafka (KafkaProducer.construct cfg.url cfg.kwargs)))

/-- `SQLProducer.from_endpoint_config` (lines 344-346): unlike the others it
performs no `None` check, so `broker_config.url` on an absent record raises
`AttributeError` (`'NoneType' object has no attribute 'url'`). -/
def SQLProducer.from_endpoint_config (broker_config : Option EndpointConfig) :
    Except PyError (Option EventChannel) :=
  match broker_config with
  | none => .error .attributeError
  | some cfg => .ok (some (.sql (SQLProducer.construct cfg.url cfg.kwargs)))

/-! ### Dynamic resolution fallback -/

/-- A Python object obtained from a module path: it exposes
`from_endpoint_config` or it does not (any other shape raises
`AttributeError` at the call site). -/
structure LoadedClass where
  fromEndpointConfig : Option (EndpointConfig → Except PyError (Option EventChannel))

/-- The importable environment: what each fully qualified name resolves to.
A resolution failure carries the exception `class_from_module_path` raises
(`ImportError` for a missing module, `AttributeError`/`KeyError`-like
failures for a missing attribute are raised as `AttributeError` here). -/
def ModuleEnv : Type := String → Except PyError LoadedClass

/-- Modelled from the spec: `class_from_module_path` (from
`rasa.utils.common`, not under `src/`) interprets the string as a fully
qualified reference and dynamically loads it, raising when the module or
attribute cannot be found. -/
def class_from_module_path (env : ModuleEnv) (module_path : String) :
    Except PyError LoadedClass :=
  env module_path

/-- The body of the `try` block in `load_event_channel_from_module_string`
(lines 42-44): load the class, then call its `from_endpoint_config`.  A
missing method is an `AttributeError` raised inside the `try`. -/
def load_event_channel_attempt (env : ModuleEnv) (broker_config : EndpointConfig) :
    Except PyError (Option EventChannel) :=
  match broker_config.type with
  | none => .error .typeError
  | some t =>
      match class_from_module_path env t with
      | .error e => .error e
      | .ok event_channel =>
          match event_channel.fromEndpointConfig with
          | none => .error .attributeError
          | some build => build broker_config

/-- `load_event_channel_from_module_string` (lines 37-50): `AttributeError`
and `ImportError` are caught, a warning is logged (the returned flag) and
`None` is returned; any other exception propagates. -/
def load_event_channel_from_module_string (env : ModuleEnv)
    (broker_config : EndpointConfig) : Except PyError (Option EventChannel) × Bool :=
  match load_event_channel_attempt env broker_config with
  | .error .attributeError => (.ok none, true)
  | .error .importError => (.ok none, true)
  | .error e => (.error e, false)
  | .ok v => (.ok v, false)

/-! ### The Channel Factory (`from_endpoint_config`, lines 18-34) -/

/-- The factory's observable outcome: the returned value (or raised
exception), the logging registry afterwards (FileProducer construction
mutates it), and whether the fallback logged its warning. -/
structure FactoryResult where
  result : Except PyError (Option EventChannel)
  logging : LoggingState
  warned : Bool

/-- `from_endpoint_config` (lines 18-34): dispatch on `broker_config.type`.
Only the `"sql"` comparison goes through `.lower()`; `"pika"`, `"file"` and
`"kafka"` are compared exactly, and `None` falls to the pika branch. -/
def from_endpoint_config (env : ModuleEnv) (st : LoggingState)
    (broker_config : Option EndpointConfig) : FactoryResult :=
  match broker_config with
  | none => { result := .ok none, logging := st, warned := false }
  | some cfg =>
      match cfg.type with
      | none =>
          { result := PikaProducer.from_endpoint_config (some cfg)
            logging := st, warned := false }
      | some t =>
          if t = "pika" then
            { result := PikaProducer.from_endpoint_config (some cfg)
              logging := st, warned := false }
          else if strLower t = "sql" then
            { result := SQLProducer.from_endpoint_config (some cfg)
              logging := st, warned := false }
          else if t = "file" then
            let (r, st') := FileProducer.from_endpoint_config (some cfg) st
            { result := r, logging := st', warned := false }
          else if t = "kafka" then
            { result := KafkaProducer.from_endpoint_config (some cfg)
              logging := st, warned := false }
          else
            let (r, warned) := load_event_channel_from_module_string env cfg
            { result := r, logging := st, warned }

/-! ### Dispatch lemmas for the factory -/

theorem factory_pika_branch (env : ModuleEnv) (st : LoggingState)
    (cfg : EndpointConfig) (h : cfg.type = some "pika" ∨ cfg.type = none) :
    from_endpoint_config env st (some cfg)
      = { result := PikaProducer.from_endpoint_config (some cfg)
          logging := st, warned := false } := by
  obtain ⟨ty, url, kw⟩ := cfg
  rcases h with h | h <;> (simp only at h; subst h; rfl)

theorem factory_sql_branch (env : ModuleEnv) (st : LoggingState)
    (cfg : EndpointConfig) (t : String) (h : cfg.type = some t)
    (hl : strLower t = "sql") :
    from_endpoint_config env st (some cfg)
      = { result := SQLProducer.from_endpoint_config (some cfg)
          logging := st, warned := false } := by
  have hne : t ≠ "pika" := by
    intro ht
    subst ht
    revert hl
    decide
  obtain ⟨ty, url, kw⟩ := cfg
  simp only at h
  subst h
  simp only [from_endpoint_config]
  rw [if_neg hne, if_pos hl]

theorem factory_file_branch (env : ModuleEnv) (st : LoggingState)
    (cfg : EndpointConfig) (h : cfg.type = some "file") :
    from_endpoint_config env st (some cfg)
      = { result := (FileProducer.from_endpoint_config (some cfg) st).1
          logging := (FileProducer.from_endpoint_config (some cfg) st).2
          warned := false } := by
  obtain ⟨ty, url, kw⟩ := cfg
  simp only at h
  subst h
  rfl

theorem factory_kafka_branch (env : ModuleEnv) (st : LoggingState)
    (cfg : EndpointConfig) (h : cfg.type = some "kafka") :
    from_endpoint_config env st (some cfg)
      = { result := KafkaProducer.from_endpoint_config (some cfg)
          logging := st, warned := false } := by
  obtain ⟨ty, url, kw⟩ := cfg
  simp only at h
  subst h
  rfl

theorem factory_fallback_branch (env : ModuleEnv) (st : LoggingState)
    (cfg : EndpointConfig) (t : String) (h : cfg.type = some t)
    (h1 : t ≠ "pika") (h2 : strLower t ≠ "sql") (h3 : t ≠ "file")
    (h4 : t ≠ "kafka") :
    from_endpoint_config env st (some cfg)
      = { result := (load_event_channel_from_module_string env cfg).1
          logging := st
          warned := (load_event_channel_from_module_string env cfg).2 } := by
  obtain ⟨ty, url, kw⟩ := cfg
  simp only at h
  subst h
  simp only [from_endpoint_config]
  rw [if_neg h1, if_neg h2, if_neg h3, if_neg h4]

/-! ### Logging-registry lemmas for the File Adapter -/

theorem lookupAssoc_updateAssoc_self {α : Type} (l : List (String × α))
    (key : String) (v : α) : lookupAssoc (updateAssoc l key v) key = some v := by
  induction l with
  | nil => simp [updateAssoc, lookupAssoc]
  | cons kv rest ih =>
      obtain ⟨k, w⟩ := kv
      by_cases hk : k = key
      · subst hk
        simp [updateAssoc, lookupAssoc]
      · simp [updateAssoc, lookupAssoc, hk, ih]

theorem getLogger_setLogger_self (st : LoggingState) (name : String)
    (lg : PyLogger) : (st.setLogger name lg).getLogger? name = some lg :=
  lookupAssoc_updateAssoc_self st.loggers name lg

/-- After construction, the process-global `"event-logger"` logger is at
level INFO, does not propagate, and carries the previously attached
handlers plus one fresh handler for this instance's path. -/
theorem FileProducer.construct_state (path0 : Option String) (st : LoggingState) :
    ((FileProducer.construct path0 st).2.getLogger? "event-logger")
      = some { level := some 20, propagate := false
               handlers := (getLogger st "event-logger").1.handlers
                 ++ [{ path := (FileProducer.construct path0 st).1.path }] } ∧
    (FileProducer.construct path0 st).1.event_logger = "event-logger" := by
  cases hg : st.getLogger? "event-logger" with
  | none =>
      simp only [FileProducer.construct, getLogger, hg]
      exact ⟨getLogger_setLogger_self _ _ _, trivial⟩
  | some lg =>
      simp only [FileProducer.construct, getLogger, hg]
      exact ⟨getLogger_setLogger_self _ _ _, trivial⟩

theorem foldl_appendLine_count (msg : String) (handlers : List FileHandlerM) :
    ∀ (fs : FileSystem) (q : String),
      (handlers.foldl (fun acc h => acc.appendLine h.path msg) fs) q
        = fs q ++ List.replicate (handlers.countP fun h => h.path == q) msg := by
  induction handlers with
  | nil => intro fs q; simp [List.countP_nil]
  | cons h hs ih =>
      intro fs q
      simp only [List.foldl_cons, ih, List.countP_cons]
      by_cases hq : h.path = q
      · have hbeq : (h.path == q) = true := by simp [hq]
        have happ : (fs.appendLine h.path msg) q = fs q ++ [msg] := by
          simp [FileSystem.appendLine, hq]
        rw [happ, hbeq, List.append_assoc, List.singleton_append]
        simp [List.replicate_succ]
      · have hbeq : (h.path == q) = false := by simp [hq]
        have happ : (fs.appendLine h.path msg) q = fs q := by
          simp only [FileSystem.appendLine]
          rw [if_neg (fun hc => hq hc.symm)]
        rw [happ, hbeq]
        simp

/-- `publish` through any producer whose logger is registered at level INFO
with `propagate` off writes the serialized event once per attached handler
(so once per path, counted with multiplicity), and the trailing
`handlers[0].flush()` succeeds exactly when a handler is attached. -/
theorem FileProducer.publish_writes (f : FileProducer) (event : JsonMembers)
    (st : LoggingState) (fs : FileSystem) (lg : PyLogger)
    (hlg : st.getLogger? f.event_logger = some lg)
    (hlvl : lg.level = some 20) (hprop : lg.propagate = false) :
    (∀ q, (f.publish event st fs).1 q
        = fs q ++ List.replicate (lg.handlers.countP fun h => h.path == q)
            (dumps event)) ∧
    (f.publish event st fs).2 = (if lg.handlers.isEmpty then
        Except.error .indexError else Except.ok ()) := by
  constructor
  · intro q
    have hfs : (f.publish event st fs).1 = logInfo st f.event_logger (dumps event) fs := by
      simp only [FileProducer.publish, hlg]
      cases lg.handlers <;> rfl
    rw [hfs]
    simp only [logInfo, hlg, PyLogger.effectiveLevel, hlvl, Option.getD_some, hprop]
    rw [if_pos (by omega : 20 ≥ 20)]
    simp only [Bool.false_eq_true, if_false]
    exact foldl_appendLine_count (dumps event) lg.handlers fs q
  · simp only [FileProducer.publish, hlg]
    cases lg.handlers <;> rfl

/-! ## Claim theorems -/

/-- A dynamic-load environment in which no reference resolves (every import
fails). -/
def failingModuleEnv : ModuleEnv := fun _ => .error .importError

/-- The spec's concrete example event
`{"event": "user_uttered", "sender_id": "abc"}`. -/
def exampleEvent : JsonMembers :=
  .cons "event" (.str "user_uttered") (.cons "sender_id" (.str "abc") .nil)

/-- C3: at a concrete producer whose host is an AMQP URL and whose
credentials were supplied, `_open_connection` hands `pika.BlockingConnection`
the *bare credentials object* — the URL-derived parameters (with the forced
attempt count 20 and retry delay 5) are discarded by
`parameters = self.credentials`; without credentials the URL parameters are
used as the claim describes. -/
theorem pika_url_with_credentials_passes_bare_credentials :
    PikaProducer.construct (some "amqp://localhost")
        { username := some (some "user"), password := some (some "pass") }
      = .ok { queue := "rasa_core_events", host := some "amqp://localhost",
              port := 5672,
              credentials := some { username := "user", password := "pass" } } ∧
    PikaProducer.open_connection
        { queue := "rasa_core_events", host := some "amqp://localhost",
          port := 5672,
          credentials := some { username := "user", password := "pass" } } {}
      = .ok (.creds { username := "user", password := "pass" }) ∧
    PikaProducer.open_connection
        { queue := "rasa_core_events", host := some "amqp://localhost",
          port := 5672, credentials := none } {}
      = .ok (.params (.urlParameters "amqp://localhost" 20 5)) :=
  ⟨rfl, rfl, rfl⟩

/-- C4 (counterexample): `SQLProducer.from_endpoint_config` does not return
absent on an absent configuration record — it raises `AttributeError`
(`broker_config.url` on `None`), falsifying the claim for the Relational
Adapter. -/
theorem sql_build_absent_config_raises :
    SQLProducer.from_endpoint_config none = .error .attributeError ∧
    SQLProducer.from_endpoint_config none ≠ .ok none :=
  ⟨rfl, fun h => Except.noConfusion h⟩

/-- C4 (amended): the Queue, File and Stream adapters' `from_endpoint_config`
return absent exactly on an absent configuration record, while the
Relational Adapter's raises `AttributeError` on an absent record; none of
the four ever returns absent for a present record (each returns a channel
instance or raises). -/
theorem build_absent_config_handling (st : LoggingState) :
    PikaProducer.from_endpoint_config none = .ok none ∧
    FileProducer.from_endpoint_config none st = (.ok none, st) ∧
    KafkaProducer.from_endpoint_config none = .ok none ∧
    SQLProducer.from_endpoint_config none = .error .attributeError ∧
    (∀ cfg, PikaProducer.from_endpoint_config (some cfg) ≠ .ok none) ∧
    (∀ cfg st', (FileProducer.from_endpoint_config (some cfg) st').1 ≠ .ok none) ∧
    (∀ cfg, KafkaProducer.from_endpoint_config (some cfg) ≠ .ok none) ∧
    (∀ cfg, SQLProducer.from_endpoint_config (some cfg) ≠ .ok none) := by
  refine ⟨rfl, rfl, rfl, rfl, ?_, ?_, ?_, ?_⟩
  · intro cfg h
    simp only [PikaProducer.from_endpoint_config] at h
    cases hc : PikaProducer.construct cfg.url cfg.kwargs with
    | error e => rw [hc] at h; simp [Except.map] at h
    | ok p => rw [hc] at h; simp [Except.map] at h
  · intro cfg st' h
    simp [FileProducer.from_endpoint_config] at h
  · intro cfg h
    simp [KafkaProducer.from_endpoint_config] at h
  · intro cfg h
    simp [SQLProducer.from_endpoint_config] at h

/-- C9: when the security protocol string is neither `"SASL_PLAINTEXT"` nor
`"SSL"`, `_create_producer` creates no producer, and `publish` sends nothing
and fails with the null-reference class of error (`AttributeError` from
`self.producer.send` on `None`). -/
theorem kafka_unknown_protocol_publish_fails (host : Option String)
    (kw : Kwargs) (event : JsonMembers)
    (h1 : kw.security_protocol.getD "SASL_PLAINTEXT" ≠ "SASL_PLAINTEXT")
    (h2 : kw.security_protocol.getD "SASL_PLAINTEXT" ≠ "SSL") :
    ((KafkaProducer.construct host kw).create_producer).producer = none ∧
    ((KafkaProducer.construct host kw).publish event).1 = [] ∧
    ((KafkaProducer.construct host kw).publish event).2 = .error .attributeError := by
  have hcp : (KafkaProducer.construct host kw).create_producer
      = KafkaProducer.construct host kw := by
    simp only [KafkaProducer.create_producer, KafkaProducer.construct]
    rw [if_neg h1, if_neg h2]
  refine ⟨?_, ?_, ?_⟩
  · rw [hcp]; rfl
  · simp only [KafkaProducer.publish, hcp]; rfl
  · simp only [KafkaProducer.publish, hcp]; rfl

/-- C9 witness: the protocol string `"PLAINTEXT"` is not recognized; the
publish call through such an adapter sends nothing and raises the
null-reference error. -/
theorem kafka_unknown_protocol_publish_fails_witness :
    ((KafkaProducer.construct (some "host")
        { security_protocol := some "PLAINTEXT" }).publish exampleEvent).1 = [] ∧
    ((KafkaProducer.construct (some "host")
        { security_protocol := some "PLAINTEXT" }).publish exampleEvent).2
      = .error .attributeError := by
  have h := kafka_unknown_protocol_publish_fails (some "host")
    { security_protocol := some "PLAINTEXT" } exampleEvent
    (by decide) (by decide)
  exact ⟨h.2.1, h.2.2⟩

/-- C10: the `ssl_check_hostname` constructor argument never reaches the
producer — two constructions differing only in it produce identical
producers, and under the `"SSL"` protocol the client is always created with
`ssl_check_hostname=False`. -/
theorem kafka_ssl_check_hostname_ignored (host : Option String) (kw : Kwargs)
    (b₁ b₂ : Option Bool)
    (hssl : kw.security_protocol.getD "SASL_PLAINTEXT" = "SSL") :
    ((KafkaProducer.construct host
        { kw with ssl_check_hostname := b₁ }).create_producer).producer
      = ((KafkaProducer.construct host
          { kw with ssl_check_hostname := b₂ }).create_producer).producer ∧
    (∃ cfg, ((KafkaProducer.construct host
        { kw with ssl_check_hostname := b₁ }).create_producer).producer = some cfg
      ∧ cfg.ssl_check_hostname = some false) := by
  have hred : ∀ b : Option Bool,
      ((KafkaProducer.construct host
          { kw with ssl_check_hostname := b }).create_producer).producer
        = some { bootstrap_servers := [host]
                 value_serializer_json_utf8 := true
                 ssl_cafile := some kw.ssl_cafile
                 ssl_certfile := some kw.ssl_certfile
                 ssl_keyfile := some kw.ssl_keyfile
                 ssl_check_hostname := some false
                 security_protocol := "SSL" } := by
    intro b
    simp only [KafkaProducer.construct, KafkaProducer.create_producer]
    rw [hssl]
    rfl
  exact ⟨by rw [hred b₁, hred b₂], ⟨_, hred b₁, rfl⟩⟩

/-- C10 witness: constructions differing only in `ssl_check_hostname`
(`true` vs `false`) under the `"SSL"` protocol yield the same producer,
with hostname checking off. -/
theorem kafka_ssl_check_hostname_ignored_witness :
    ((KafkaProducer.construct (some "host")
        { security_protocol := some "SSL",
          ssl_check_hostname := some true }).create_producer).producer
      = ((KafkaProducer.construct (some "host")
          { security_protocol := some "SSL",
            ssl_check_hostname := some false }).create_producer).producer ∧
    (∃ cfg, ((KafkaProducer.construct (some "host")
        { security_protocol := some "SSL",
          ssl_check_hostname := some true }).create_producer).producer = some cfg
      ∧ cfg.ssl_check_hostname = some false) :=
  kafka_ssl_check_hostname_ignored (some "host")
    { security_protocol := some "SSL" } (some true) (some false) rfl

/-- C1 (counterexample): a present configuration record selecting the queue
transport (here by an absent type, equivalently `"pika"`) whose kwargs lack
the `username`/`password` keys makes the factory raise `TypeError`
(`PikaProducer.__init__` has no defaults for them) instead of returning a
queue adapter instance. -/
theorem factory_pika_without_credentials_raises :
    (from_endpoint_config failingModuleEnv {}
        (some { url := some "localhost" })).result = .error .typeError ∧
    (from_endpoint_config failingModuleEnv {}
        (some { url := some "localhost" })).result ≠ .ok none :=
  ⟨rfl, fun h => Except.noConfusion h⟩

/-- C1 (amended): for a present record whose type selects a built-in
transport — `"pika"`/absent (provided the kwargs carry the required
`username` and `password` keys), `"sql"` in any letter case, `"file"`, or
`"kafka"` — the factory returns an adapter instance of the matching kind;
it returns absent only when the input record itself is absent, and never
absent for these types. -/
theorem factory_builds_matching_adapter (env : ModuleEnv) (st : LoggingState)
    (cfg : EndpointConfig) :
    ((cfg.type = some "pika" ∨ cfg.type = none) →
        cfg.kwargs.username ≠ none → cfg.kwargs.password ≠ none →
        ∃ p, (from_endpoint_config env st (some cfg)).result
          = .ok (some (.pika p))) ∧
    (∀ t, cfg.type = some t → strLower t = "sql" →
        ∃ s, (from_endpoint_config env st (some cfg)).result
          = .ok (some (.sql s))) ∧
    (cfg.type = some "file" →
        ∃ f, (from_endpoint_config env st (some cfg)).result
          = .ok (some (.file f))) ∧
    (cfg.type = some "kafka" →
        ∃ k, (from_endpoint_config env st (some cfg)).result
          = .ok (some (.kafka k))) ∧
    (from_endpoint_config env st none).result = .ok none ∧
    ((cfg.type = some "pika" ∨ cfg.type = none ∨ cfg.type = some "file" ∨
        cfg.type = some "kafka" ∨ (∃ t, cfg.type = some t ∧ strLower t = "sql")) →
      (from_endpoint_config env st (some cfg)).result ≠ .ok none) := by
  refine ⟨?_, ?_, ?_, ?_, rfl, ?_⟩
  · intro hty hu hp
    rw [factory_pika_branch env st cfg hty]
    obtain ⟨u, hu'⟩ := Option.ne_none_iff_exists'.mp hu
    obtain ⟨p, hp'⟩ := Option.ne_none_iff_exists'.mp hp
    simp only [PikaProducer.from_endpoint_config, PikaProducer.construct, hu', hp']
    exact ⟨_, rfl⟩
  · intro t ht hl
    rw [factory_sql_branch env st cfg t ht hl]
    exact ⟨_, rfl⟩
  · intro ht
    rw [factory_file_branch env st cfg ht]
    exact ⟨_, rfl⟩
  · intro ht
    rw [factory_kafka_branch env st cfg ht]
    exact ⟨_, rfl⟩
  · intro hty h
    rcases hty with ht | ht | ht | ht | ⟨t, ht, hl⟩
    · rw [factory_pika_branch env st cfg (Or.inl ht)] at h
      simp only [PikaProducer.from_endpoint_config] at h
      cases hc : PikaProducer.construct cfg.url cfg.kwargs with
      | error e => rw [hc] at h; simp [Except.map] at h
      | ok p => rw [hc] at h; simp [Except.map] at h
    · rw [factory_pika_branch env st cfg (Or.inr ht)] at h
      simp only [PikaProducer.from_endpoint_config] at h
      cases hc : PikaProducer.construct cfg.url cfg.kwargs with
      | error e => rw [hc] at h; simp [Except.map] at h
      | ok p => rw [hc] at h; simp [Except.map] at h
    · rw [factory_file_branch env st cfg ht] at h
      simp [FileProducer.from_endpoint_config] at h
    · rw [factory_kafka_branch env st cfg ht] at h
      simp [KafkaProducer.from_endpoint_config] at h
    · rw [factory_sql_branch env st cfg t ht hl] at h
      simp [SQLProducer.from_endpoint_config] at h

/-- C1 witness: concrete records — a `"file"` record builds a File adapter,
and a pika record with `username`/`password` kwargs builds a queue
adapter. -/
theorem factory_builds_matching_adapter_witness :
    (∃ f, (from_endpoint_config failingModuleEnv {}
        (some { type := some "file" })).result = .ok (some (.file f))) ∧
    (∃ p, (from_endpoint_config failingModuleEnv {}
        (some { type := some "pika", url := some "localhost",
                kwargs := { username := some (some "u"),
                            password := some (some "p") } })).result
      = .ok (some (.pika p))) :=
  ⟨(factory_builds_matching_adapter failingModuleEnv {}
      { type := some "file" }).2.2.1 rfl,
   (factory_builds_matching_adapter failingModuleEnv {}
      { type := some "pika", url := some "localhost",
        kwargs := { username := some (some "u"),
                    password := some (some "p") } }).1
      (Or.inl rfl) (fun h => Option.noConfusion h) (fun h => Option.noConfusion h)⟩

/-- C2: a present record whose type matches no built-in transport and whose
dynamic resolution fails in one of the claim's ways — module not found
(`ImportError`), class not found (`AttributeError`), or a loaded object
lacking `from_endpoint_config` (`AttributeError` at the call) — makes the
factory log a warning and return absent rather than raising. -/
theorem factory_unresolvable_type_warns_returns_none (env : ModuleEnv)
    (st : LoggingState) (cfg : EndpointConfig) (t : String)
    (ht : cfg.type = some t)
    (h1 : t ≠ "pika") (h2 : strLower t ≠ "sql") (h3 : t ≠ "file")
    (h4 : t ≠ "kafka")
    (hfail : env t = .error .importError ∨ env t = .error .attributeError ∨
      (∃ c, env t = .ok c ∧ c.fromEndpointConfig = none)) :
    (from_endpoint_config env st (some cfg)).result = .ok none ∧
    (from_endpoint_config env st (some cfg)).warned = true := by
  rw [factory_fallback_branch env st cfg t ht h1 h2 h3 h4]
  have hattempt : load_event_channel_attempt env cfg = .error .importError ∨
      load_event_channel_attempt env cfg = .error .attributeError := by
    rcases hfail with hf | hf | ⟨c, hc, hm⟩
    · left
      simp [load_event_channel_attempt, ht, class_from_module_path, hf]
    · right
      simp [load_event_channel_attempt, ht, class_from_module_path, hf]
    · right
      simp [load_event_channel_attempt, ht, class_from_module_path, hc, hm]
  rcases hattempt with ha | ha <;>
    simp [load_event_channel_from_module_string, ha]

/-- C2 witness: the spec's concrete scenario `{type: "not.a.real.Class"}`
against an environment where no import succeeds — the factory returns
absent and warns. -/
theorem factory_unresolvable_type_warns_returns_none_witness :
    (from_endpoint_config failingModuleEnv {}
        (some { type := some "not.a.real.Class" })).result = .ok none ∧
    (from_endpoint_config failingModuleEnv {}
        (some { type := some "not.a.real.Class" })).warned = true :=
  factory_unresolvable_type_warns_returns_none failingModuleEnv {}
    { type := some "not.a.real.Class" } "not.a.real.Class" rfl
    (by decide) (by decide) (by decide) (by decide) (Or.inl rfl)

/-- C5 (counterexample): the record `{type: "FILE"}` does not build the File
adapter — only `"sql"` is compared case-insensitively, so `"FILE"` falls
through to the dynamic resolution fallback, which (with the reference
unresolvable) warns and returns absent. -/
theorem factory_uppercase_FILE_falls_through :
    (from_endpoint_config failingModuleEnv {}
        (some { type := some "FILE" })).result = .ok none ∧
    (from_endpoint_config failingModuleEnv {}
        (some { type := some "FILE" })).warned = true :=
  ⟨rfl, rfl⟩

/-- C5 (amended): dispatch on the explicit names is case-sensitive except
for `"sql"`: `"pika"`, `"file"` and `"kafka"` must match exactly, `"sql"`
matches in any letter case, and any other string (including other
capitalizations of the built-in names) goes to the dynamic resolution
fallback. -/
theorem factory_dispatch_cases (env : ModuleEnv) (st : LoggingState)
    (cfg : EndpointConfig) (t : String) (ht : cfg.type = some t) :
    (t = "pika" → from_endpoint_config env st (some cfg)
        = { result := PikaProducer.from_endpoint_config (some cfg)
            logging := st, warned := false }) ∧
    (strLower t = "sql" → from_endpoint_config env st (some cfg)
        = { result := SQLProducer.from_endpoint_config (some cfg)
            logging := st, warned := false }) ∧
    (t = "file" → from_endpoint_config env st (some cfg)
        = { result := (FileProducer.from_endpoint_config (some cfg) st).1
            logging := (FileProducer.from_endpoint_config (some cfg) st).2
            warned := false }) ∧
    (t = "kafka" → from_endpoint_config env st (some cfg)
        = { result := KafkaProducer.from_endpoint_config (some cfg)
            logging := st, warned := false }) ∧
    (t ≠ "pika" → strLower t ≠ "sql" → t ≠ "file" → t ≠ "kafka" →
      from_endpoint_config env st (some cfg)
        = { result := (load_event_channel_from_module_string env cfg).1
            logging := st
            warned := (load_event_channel_from_module_string env cfg).2 }) := by
  refine ⟨?_, ?_, ?_, ?_, ?_⟩
  · intro h
    subst h
    exact factory_pika_branch env st cfg (Or.inl ht)
  · intro hl
    exact factory_sql_branch env st cfg t ht hl
  · intro h
    subst h
    exact factory_file_branch env st cfg ht
  · intro h
    subst h
    exact factory_kafka_branch env st cfg ht
  · intro h1 h2 h3 h4
    exact factory_fallback_branch env st cfg t ht h1 h2 h3 h4

/-- C5 witness: the exact lowercase names dispatch to their adapters
(`"file"` shown), and the mixed-case `"SqL"` still reaches the Relational
Adapter branch. -/
theorem factory_dispatch_cases_witness :
    from_endpoint_config failingModuleEnv {} (some { type := some "file" })
      = { result := (FileProducer.from_endpoint_config
            (some { type := some "file" }) {}).1
          logging := (FileProducer.from_endpoint_config
            (some { type := some "file" }) {}).2
          warned := false } ∧
    from_endpoint_config failingModuleEnv {} (some { type := some "SqL" })
      = { result := SQLProducer.from_endpoint_config
            (some { type := some "SqL" })
          logging := {}, warned := false } :=
  ⟨(factory_dispatch_cases failingModuleEnv {} { type := some "file" }
      "file" rfl).2.2.1 rfl,
   (factory_dispatch_cases failingModuleEnv {} { type := some "SqL" }
      "SqL" rfl).2.1 rfl⟩

/-- C6: publishing through the Relational Adapter, from a session with
nothing pending (the invariant between publishes, since every publish
commits), appends exactly one committed row whose `data` column JSON-parses
back to the original event and whose `sender_id` column is the event's
`"sender_id"` value when present and SQL NULL (`none`) otherwise. -/
theorem sql_publish_roundtrip (p : SQLProducer) (event : JsonMembers)
    (session : SQLSession) (hpending : session.pending = []) :
    (p.publish event session).committed
      = session.committed
        ++ [{ sender_id := event.get "sender_id", data := dumps event }] ∧
    (p.publish event session).pending = [] ∧
    loads (dumps event) = some (.obj event) := by
  refine ⟨?_, rfl, loads_dumps event⟩
  simp [SQLProducer.publish, SQLSession.add, SQLSession.commit, hpending]

/-- C6 witness: the spec's example event round-trips through a fresh
Relational Adapter session, with `sender_id = "abc"` extracted into the
column. -/
theorem sql_publish_roundtrip_witness :
    (SQLProducer.publish (SQLProducer.construct none {}) exampleEvent
        {}).committed
      = [{ sender_id := exampleEvent.get "sender_id",
           data := dumps exampleEvent }] ∧
    loads (dumps exampleEvent) = some (.obj exampleEvent) ∧
    exampleEvent.get "sender_id" = some (.str "abc") := by
  have h := sql_publish_roundtrip (SQLProducer.construct none {}) exampleEvent
    {} rfl
  exact ⟨by simpa using h.1, h.2.2, rfl⟩

/-- C7: publishing through a File Adapter built in a process whose logging
registry has no `"event-logger"` yet (the single-instance scenario) appends
exactly one line — the JSON serialization of the event — to the configured
file and to no other file, the last line of that file parses back to the
event, and the `handlers[0].flush()` call succeeds before returning. -/
theorem file_publish_roundtrip (st : LoggingState) (path : String)
    (event : JsonMembers) (fs : FileSystem)
    (hfresh : st.getLogger? "event-logger" = none) (hpath : path ≠ "") :
    (∀ q, ((FileProducer.construct (some path) st).1.publish event
        (FileProducer.construct (some path) st).2 fs).1 q
      = if q = path then fs q ++ [dumps event] else fs q) ∧
    (((FileProducer.construct (some path) st).1.publish event
        (FileProducer.construct (some path) st).2 fs).1 path).getLast?
      = some (dumps event) ∧
    loads (dumps event) = some (.obj event) ∧
    ((FileProducer.construct (some path) st).1.publish event
        (FileProducer.construct (some path) st).2 fs).2 = .ok () := by
  have hempty : path.isEmpty = false := by
    rw [Bool.eq_false_iff]
    intro h
    exact hpath ((String.isEmpty_iff path).mp h)
  have hpathres : (FileProducer.construct (some path) st).1.path = path := by
    simp [FileProducer.construct, getLogger, hfresh, truthyStr, hempty]
  obtain ⟨hlg, hname⟩ := FileProducer.construct_state (some path) st
  have hfreshlog : (getLogger st "event-logger").1 = {} := by
    simp [getLogger, hfresh]
  rw [hfreshlog, hpathres] at hlg
  have hlg' : ((FileProducer.construct (some path) st).2.getLogger?
      "event-logger")
      = some { level := some 20, propagate := false
               handlers := [{ path := path }] } := by
    simpa using hlg
  have hw := FileProducer.publish_writes (FileProducer.construct (some path) st).1
    event (FileProducer.construct (some path) st).2 fs _
    (by rw [hname]; exact hlg') rfl rfl
  refine ⟨?_, ?_, loads_dumps event, ?_⟩
  · intro q
    rw [hw.1 q]
    by_cases hq : q = path
    · subst hq
      rw [if_pos rfl]
      simp [List.countP_cons, List.countP_nil]
    · rw [if_neg hq]
      have hbeq : (path == q) = false := by
        simp only [beq_eq_false_iff_ne, ne_eq]
        exact fun h => hq h.symm
      simp [List.countP_cons, List.countP_nil, hbeq]
  · rw [hw.1 path]
    simp only [List.countP_cons, List.countP_nil, beq_self_eq_true,
      if_pos, Nat.zero_add, List.replicate_one]
    exact List.getLast?_concat _
  · rw [hw.2]
    rfl

/-- C7 witness: the spec's concrete scenario — a File Adapter on
`/tmp/events.log` in a fresh process, publishing
`{"event": "user_uttered", "sender_id": "abc"}` — leaves exactly that JSON
line in the file, and it parses back to the event. -/
theorem file_publish_roundtrip_witness :
    ((FileProducer.construct (some "/tmp/events.log") {}).1.publish
        exampleEvent (FileProducer.construct (some "/tmp/events.log") {}).2
        (fun _ => [])).1 "/tmp/events.log" = [dumps exampleEvent] ∧
    loads (dumps exampleEvent) = some (.obj exampleEvent) := by
  have h := file_publish_roundtrip {} "/tmp/events.log" exampleEvent
    (fun _ => []) rfl (by decide)
  refine ⟨?_, h.2.2.1⟩
  have h1 := h.1 "/tmp/events.log"
  simpa using h1

/-- C8 (counterexample): with two File Adapters alive in one process
(paths `a.log` and `b.log`), publishing one event through the *second*
writes the event into the first instance's file as well — the logger named
`"event-logger"` is process-global, so its handlers accumulate across
instances. -/
def twoFileProducersState : FileProducer × LoggingState :=
  FileProducer.construct (some "b.log")
    (FileProducer.construct (some "a.log") ({} : LoggingState)).2

/-- C8 (counterexample): the event published through the `b.log` producer
lands in `a.log` too, refuting per-instance isolation. -/
theorem file_publish_writes_other_instances_file :
    ((twoFileProducersState.1.publish exampleEvent twoFileProducersState.2
        (fun _ => [])).1) "a.log" = [dumps exampleEvent] ∧
    ((twoFileProducersState.1.publish exampleEvent twoFileProducersState.2
        (fun _ => [])).1) "b.log" = [dumps exampleEvent] :=
  ⟨rfl, rfl⟩

/-- C8 (amended): every File Adapter shares the single process-global logger
named `"event-logger"`; construction appends the instance's file handler to
that logger's handler list and sets `propagate := false` (so records never
reach parent loggers), and a publish through any instance writes the event
once per registered handler — hence into every constructed instance's file,
not only the publisher's own. -/
theorem file_event_logger_shared (st : LoggingState) (path0 : Option String) :
    (FileProducer.construct path0 st).1.event_logger = "event-logger" ∧
    ((FileProducer.construct path0 st).2.getLogger? "event-logger")
      = some { level := some 20, propagate := false
               handlers := (getLogger st "event-logger").1.handlers
                 ++ [{ path := (FileProducer.construct path0 st).1.path }] } ∧
    (∀ event fs q,
      ((FileProducer.construct path0 st).1.publish event
          (FileProducer.construct path0 st).2 fs).1 q
        = fs q ++ List.replicate
            (((getLogger st "event-logger").1.handlers
                ++ [({ path := (FileProducer.construct path0 st).1.path }
                      : FileHandlerM)]).countP
              fun h => h.path == q)
            (dumps event)) := by
  obtain ⟨hlg, hname⟩ := FileProducer.construct_state path0 st
  refine ⟨hname, hlg, ?_⟩
  intro event fs q
  have hw := FileProducer.publish_writes (FileProducer.construct path0 st).1
    event (FileProducer.construct path0 st).2 fs _
    (by rw [hname]; exact hlg) rfl rfl
  exact hw.1 q

/-- C8 witness: the amended statement at a concrete construction — the
instance's logger is the global `"event-logger"`, at level INFO, with
propagation off and the fresh handler attached. -/
theorem file_event_logger_shared_witness :
    (FileProducer.construct (some "a.log") ({} : LoggingState)).1.event_logger
      = "event-logger" ∧
    ((FileProducer.construct (some "a.log") ({} : LoggingState)).2.getLogger?
        "event-logger")
      = some { level := some 20, propagate := false
               handlers := (getLogger ({} : LoggingState) "event-logger").1.handlers
                 ++ [{ path := (FileProducer.construct (some "a.log")
                        ({} : LoggingState)).1.path }] } :=
  ⟨(file_event_logger_shared {} (some "a.log")).1,
   (file_event_logger_shared {} (some "a.log")).2.1⟩

/-- C4 witness: the amended statement at concrete inputs — the Queue
Adapter's build returns absent on an absent record, the Relational
Adapter's raises instead, and a present `"sql"` record never yields
absent. -/
theorem build_absent_config_handling_witness :
    PikaProducer.from_endpoint_config none = .ok none ∧
    SQLProducer.from_endpoint_config none = .error .attributeError ∧
    SQLProducer.from_endpoint_config (some { type := some "sql" }) ≠ .ok none :=
  ⟨(build_absent_config_handling {}).1,
   (build_absent_config_handling {}).2.2.2.1,
   (build_absent_config_handling {}).2.2.2.2.2.2.2 { type := some "sql" }⟩

end Broker
